import Mathlib

/-!
Verification of the Team Directory Service of the marina repository.

The embedding follows `src/service.py` (class `TeamManagementService`) and the
schema created in `src/database.py` / `DatabaseConnection.setup_database`:

  teams(team_name TEXT PRIMARY KEY)
  team_members(username TEXT, team_name TEXT, PRIMARY KEY(username, team_name))
  chat_teams(chat_id INTEGER, team_name TEXT, PRIMARY KEY(chat_id, team_name))

The persisted state is the three tables, each modelled as the list of its rows
in rowid (insertion) order, which is the order SQLite returns rows of these
tables for the queries of the service that carry no ORDER BY clause.  Each
service method opens its own connection, hence each is a function from the
state before the call to a typed result plus the state after the call; the
Python dict with keys success / message / payload is modelled as one inductive
per method, one constructor per control-flow branch of the source, carrying the
message string the source formats.  SQLite raises IntegrityError on a primary
key violation; the embedding tests key membership at the insert site, which is
the behaviour the try/except of each method exposes.
-/

namespace Marina

/-- Python `username.replace("@", "")` (service.py lines 39, 87, 177, 239):
every "@" character is removed, and nothing else changes. -/
def stripAt (s : String) : String :=
  String.mk (s.toList.filter (fun c => c ≠ '@'))

/-- One character of Python `str.lower()`: an ASCII capital letter is shifted
to the corresponding small letter, every other character is unchanged. -/
def lowerChar (c : Char) : Char :=
  if 65 ≤ c.toNat ∧ c.toNat ≤ 90 then Char.ofNat (c.toNat + 32) else c

/-- Python `team_name.lower()` (service.py lines 15, 40, 88, 129, 227, 270). -/
def pyLower (s : String) : String :=
  String.mk (s.toList.map lowerChar)

/-- A single quote character, for reproducing the Python `!r` formatting of the
usernames and team names inside the message strings of the service. -/
def sq : String := String.singleton (Char.ofNat 39)

/-- Python `repr` of a string holding no quote or escape character: the string
wrapped in single quotes, as produced by the `!r` format conversions. -/
def pyRepr (s : String) : String := sq ++ s ++ sq

/-- SQLite BINARY collation on TEXT values compares the UTF-8 encodings as
byte strings; because UTF-8 preserves code-point order, that is exactly the
lexicographic order of the code points. -/
def charListLe : List Char → List Char → Bool
  | [], _ => true
  | _ :: _, [] => false
  | a :: as, b :: bs =>
    if a.toNat < b.toNat then true
    else if b.toNat < a.toNat then false
    else charListLe as bs

/-- The order `ORDER BY` sorts TEXT columns by (BINARY collation). -/
def SLe (a b : String) : Prop := charListLe a.toList b.toList = true

instance : DecidableRel SLe := fun a b =>
  inferInstanceAs (Decidable (charListLe a.toList b.toList = true))

/-- The persisted state of the service: the three tables of
`DatabaseConnection.setup_database`, each as its rows in insertion order.
A `team_members` row is (username, team_name); a `chat_teams` row is
(chat_id, team_name). -/
structure DBState where
  teams : List String
  team_members : List (String × String)
  chat_teams : List (Int × String)
deriving Repr, DecidableEq

/-- The state right after `setup_database`: three empty tables. -/
def initialState : DBState := DBState.mk [] [] []

/-- Result of `create_team` (service.py lines 13 to 35): the success dict, or
the IntegrityError branch for a duplicate primary key. -/
inductive CreateTeamResult where
  | ok (message : String)
  | alreadyExists (message : String)
deriving Repr, DecidableEq

/-- `TeamManagementService.create_team` (service.py lines 13 to 35):
lower-case the name, insert it into `teams`; a primary-key violation is
answered with the already-exists message and, the transaction never being
committed, leaves the state unchanged. -/
def create_team (s : DBState) (team_name : String) : CreateTeamResult × DBState :=
  let t := pyLower team_name
  if t ∈ s.teams then
    (CreateTeamResult.alreadyExists ("Team " ++ pyRepr t ++ " already exists"), s)
  else
    (CreateTeamResult.ok ("Team " ++ pyRepr t ++ " created successfully"),
     DBState.mk (s.teams ++ [t]) s.team_members s.chat_teams)

/-- Result of `add_member_to_team` (service.py lines 37 to 83): the missing
team branch, the IntegrityError branch for a duplicate (username, team_name)
key, or the success dict carrying `chats_to_add`. -/
inductive AddMemberResult where
  | teamNotFound (message : String)
  | alreadyMember (message : String)
  | ok (message : String) (chats_to_add : List Int)
deriving Repr, DecidableEq

/-- `TeamManagementService.add_member_to_team` (service.py lines 37 to 83):
strip "@" from the username and lower-case the team name, fail when the team
is absent from `teams`, fail when the (username, team_name) pair is already a
row of `team_members`, otherwise insert the row and return the chat_id of
every `chat_teams` row of that team. -/
def add_member_to_team (s : DBState) (username team_name : String) :
    AddMemberResult × DBState :=
  let u := stripAt username
  let t := pyLower team_name
  if t ∈ s.teams then
    if (u, t) ∈ s.team_members then
      (AddMemberResult.alreadyMember
         ("User " ++ pyRepr u ++ " is already in team " ++ pyRepr t), s)
    else
      (AddMemberResult.ok ("Added user " ++ pyRepr u ++ " to team " ++ pyRepr t)
         ((s.chat_teams.filter (fun ct => ct.2 = t)).map (fun ct => ct.1)),
       DBState.mk s.teams (s.team_members ++ [(u, t)]) s.chat_teams)
  else
    (AddMemberResult.teamNotFound
       ("Team " ++ pyRepr t ++ " doesn" ++ sq ++ "t exist"), s)

/-- Result of `remove_member_from_team` (service.py lines 85 to 125): the
zero-rowcount branch, or the success dict carrying `chats_to_remove`. -/
inductive RemoveMemberResult where
  | notAMember (message : String)
  | ok (message : String) (chats_to_remove : List Int)
deriving Repr, DecidableEq

/-- `TeamManagementService.remove_member_from_team` (service.py lines 85 to
125): strip "@" and lower-case, DELETE the rows of `team_members` matching
both the username and the team name; when the rowcount is zero answer the
not-in-team message without committing, otherwise return the chat_id of every
`chat_teams` row of that team.  There is no team-existence check. -/
def remove_member_from_team (s : DBState) (username team_name : String) :
    RemoveMemberResult × DBState :=
  let u := stripAt username
  let t := pyLower team_name
  if (u, t) ∈ s.team_members then
    (RemoveMemberResult.ok
       ("Removed user " ++ pyRepr u ++ " from team " ++ pyRepr t)
       ((s.chat_teams.filter (fun ct => ct.2 = t)).map (fun ct => ct.1)),
     DBState.mk s.teams (s.team_members.filter (fun m => m ≠ (u, t))) s.chat_teams)
  else
    (RemoveMemberResult.notAMember
       ("User " ++ pyRepr u ++ " is not in team " ++ pyRepr t), s)

/-- Result of `add_team_to_chat` (service.py lines 127 to 173): the missing
team branch, the IntegrityError branch for a duplicate (chat_id, team_name)
key, or the success dict carrying `members_to_add`. -/
inductive AddTeamToChatResult where
  | teamNotFound (message : String)
  | alreadyLinked (message : String)
  | ok (message : String) (members_to_add : List String)
deriving Repr, DecidableEq

/-- `TeamManagementService.add_team_to_chat` (service.py lines 127 to 173):
lower-case the team name, fail when the team is absent, fail when the
(chat_id, team_name) pair is already a row of `chat_teams`, otherwise insert
the row and return the username of every `team_members` row of the team (no
ORDER BY: insertion order). -/
def add_team_to_chat (s : DBState) (chat_id : Int) (team_name : String) :
    AddTeamToChatResult × DBState :=
  let t := pyLower team_name
  if t ∈ s.teams then
    if (chat_id, t) ∈ s.chat_teams then
      (AddTeamToChatResult.alreadyLinked
         ("Team " ++ pyRepr t ++ " is already in this chat"), s)
    else
      (AddTeamToChatResult.ok ("Added team " ++ pyRepr t ++ " to chat")
         ((s.team_members.filter (fun m => m.2 = t)).map (fun m => m.1)),
       DBState.mk s.teams s.team_members (s.chat_teams ++ [(chat_id, t)]))
  else
    (AddTeamToChatResult.teamNotFound
       ("Team " ++ pyRepr t ++ " doesn" ++ sq ++ "t exist"), s)

/-- Result of `offboard_user` (service.py lines 175 to 223): the zero-rowcount
branch, or the success dict carrying `chats_to_remove`. -/
inductive OffboardResult where
  | notInAnyTeam (message : String)
  | ok (message : String) (chats_to_remove : List Int)
deriving Repr, DecidableEq

/-- `TeamManagementService.offboard_user` (service.py lines 175 to 223): strip
"@" from the username; first run
SELECT DISTINCT chat_id FROM chat_teams WHERE team_name IN
(SELECT team_name FROM team_members WHERE username = ?),
then DELETE every `team_members` row of the username; when the rowcount is
zero answer the not-in-any-teams message without committing, otherwise return
the chat list captured before the deletion.  SQL fixes no row order for
SELECT DISTINCT, so the duplicate removal is modelled with `List.dedup` and
the theorems about the returned list are stated order-insensitively. -/
def offboard_user (s : DBState) (username : String) : OffboardResult × DBState :=
  let u := stripAt username
  let userTeamNames := (s.team_members.filter (fun m => m.1 = u)).map (fun m => m.2)
  let chats :=
    ((s.chat_teams.filter (fun ct => ct.2 ∈ userTeamNames)).map (fun ct => ct.1)).dedup
  if (s.team_members.filter (fun m => m.1 = u)) = [] then
    (OffboardResult.notInAnyTeam
       ("User " ++ pyRepr u ++ " is not in any teams"), s)
  else
    (OffboardResult.ok ("User " ++ pyRepr u ++ " has been offboarded") chats,
     DBState.mk s.teams (s.team_members.filter (fun m => ¬ m.1 = u)) s.chat_teams)

/-- `TeamManagementService.get_team_members`: the class body defines the name
twice (service.py lines 225 and 268) and the later definition silently
overrides the earlier one, so the effective query is the one of lines 268 to
277: lower-case the team name and return the usernames of its `team_members`
rows, ORDER BY username. -/
def get_team_members (s : DBState) (team_name : String) : List String :=
  let t := pyLower team_name
  List.insertionSort SLe ((s.team_members.filter (fun m => m.2 = t)).map (fun m => m.1))

/-- `TeamManagementService.get_user_teams` (service.py lines 237 to 247). -/
def get_user_teams (s : DBState) (username : String) : List String :=
  let u := stripAt username
  (s.team_members.filter (fun m => m.1 = u)).map (fun m => m.2)

/-- `TeamManagementService.get_chat_teams` (service.py lines 249 to 257). -/
def get_chat_teams (s : DBState) (chat_id : Int) : List String :=
  (s.chat_teams.filter (fun ct => ct.1 = chat_id)).map (fun ct => ct.2)

/-- `TeamManagementService.get_teams` (service.py lines 259 to 266):
ORDER BY team_name. -/
def get_teams (s : DBState) : List String :=
  List.insertionSort SLe s.teams

/-- Whether a `create_team` result is the success dict. -/
def CreateTeamResult.success : CreateTeamResult → Bool
  | CreateTeamResult.ok _ => true
  | CreateTeamResult.alreadyExists _ => false

/-- Whether an `add_member_to_team` result is the success dict. -/
def AddMemberResult.success : AddMemberResult → Bool
  | AddMemberResult.ok _ _ => true
  | _ => false

/-- Whether a `remove_member_from_team` result is the success dict. -/
def RemoveMemberResult.success : RemoveMemberResult → Bool
  | RemoveMemberResult.ok _ _ => true
  | _ => false

/-- Whether an `add_team_to_chat` result is the success dict. -/
def AddTeamToChatResult.success : AddTeamToChatResult → Bool
  | AddTeamToChatResult.ok _ _ => true
  | _ => false

/-- Whether an `offboard_user` result is the success dict. -/
def OffboardResult.success : OffboardResult → Bool
  | OffboardResult.ok _ _ => true
  | _ => false

/-- The `chats_to_remove` payload of an `offboard_user` result (empty on the
failure branch, whose dict carries no payload). -/
def OffboardResult.chats : OffboardResult → List Int
  | OffboardResult.notInAnyTeam _ => []
  | OffboardResult.ok _ cs => cs

/-- One call of any of the five mutating methods of the service, for stating
properties uniform over the whole mutating API. -/
inductive Op where
  | createTeam (team_name : String)
  | addMember (username team_name : String)
  | removeMember (username team_name : String)
  | addTeamToChat (chat_id : Int) (team_name : String)
  | offboardUser (username : String)
deriving Repr, DecidableEq

/-- Run one mutating call: the success flag of its dict, and the state after
the call. -/
def runOp (s : DBState) : Op → Bool × DBState
  | Op.createTeam t =>
    let r := create_team s t
    (r.1.success, r.2)
  | Op.addMember u t =>
    let r := add_member_to_team s u t
    (r.1.success, r.2)
  | Op.removeMember u t =>
    let r := remove_member_from_team s u t
    (r.1.success, r.2)
  | Op.addTeamToChat c t =>
    let r := add_team_to_chat s c t
    (r.1.success, r.2)
  | Op.offboardUser u =>
    let r := offboard_user s u
    (r.1.success, r.2)

/-- Referential integrity of the schema: every `team_members` row and every
`chat_teams` row names a team present in `teams`. -/
def RefIntegrity (s : DBState) : Prop :=
  (∀ m ∈ s.team_members, m.2 ∈ s.teams) ∧ (∀ ct ∈ s.chat_teams, ct.2 ∈ s.teams)

instance (s : DBState) : Decidable (RefIntegrity s) :=
  inferInstanceAs (Decidable (_ ∧ _))

end Marina

namespace Marina

theorem charListLe_total : ∀ as bs : List Char,
    charListLe as bs = true ∨ charListLe bs as = true := by
  intro as
  induction as with
  | nil => intro bs; left; rfl
  | cons a as ih =>
    intro bs
    cases bs with
    | nil => right; rfl
    | cons b bs =>
      simp only [charListLe]
      rcases Nat.lt_trichotomy a.toNat b.toNat with h | h | h
      · left; simp [h]
      · have h2 : ¬ a.toNat < b.toNat := by omega
        have h3 : ¬ b.toNat < a.toNat := by omega
        simp only [h2, h3, if_false]
        exact ih bs
      · right; simp [h]

theorem charListLe_trans : ∀ as bs cs : List Char,
    charListLe as bs = true → charListLe bs cs = true → charListLe as cs = true := by
  intro as
  induction as with
  | nil => intro bs cs _ _; rfl
  | cons a as ih =>
    intro bs cs hab hbc
    cases bs with
    | nil => simp [charListLe] at hab
    | cons b bs =>
      cases cs with
      | nil => simp [charListLe] at hbc
      | cons c cs =>
        simp only [charListLe] at hab hbc ⊢
        rcases Nat.lt_trichotomy a.toNat c.toNat with h | h | h
        · simp [h]
        · have h2 : ¬ a.toNat < c.toNat := by omega
          have h3 : ¬ c.toNat < a.toNat := by omega
          simp only [h2, h3, if_false]
          by_cases hb1 : a.toNat < b.toNat
          · exfalso
            simp only [hb1, if_true] at hab
            by_cases hb2 : b.toNat < c.toNat
            · omega
            · by_cases hb3 : c.toNat < b.toNat
              · simp [hb2, hb3] at hbc
              · omega
          · by_cases hb0 : b.toNat < a.toNat
            · simp [hb1, hb0] at hab
            · have he : a.toNat = b.toNat := by omega
              simp only [hb1, hb0, if_false] at hab
              by_cases hb2 : b.toNat < c.toNat
              · omega
              · by_cases hb3 : c.toNat < b.toNat
                · simp [hb2, hb3] at hbc
                · simp only [hb2, hb3, if_false] at hbc
                  exact ih bs cs hab hbc
        · exfalso
          by_cases hb1 : a.toNat < b.toNat
          · by_cases hb2 : b.toNat < c.toNat
            · omega
            · by_cases hb3 : c.toNat < b.toNat
              · simp [hb2, hb3] at hbc
              · omega
          · by_cases hb0 : b.toNat < a.toNat
            · simp [hb1, hb0] at hab
            · by_cases hb2 : b.toNat < c.toNat
              · omega
              · by_cases hb3 : c.toNat < b.toNat
                · simp [hb2, hb3] at hbc
                · omega

instance : IsTotal String SLe :=
  ⟨fun a b => charListLe_total a.toList b.toList⟩

instance : IsTrans String SLe :=
  ⟨fun a b c => charListLe_trans a.toList b.toList c.toList⟩

end Marina

namespace Marina

/-- Helper: the usernames the member-list queries return for a team are
exactly the first components of the rows of that team. -/
theorem mem_map_fst_filter_snd (l : List (String × String)) (t un : String) :
    un ∈ (l.filter (fun m => m.2 = t)).map (fun m => m.1) ↔ (un, t) ∈ l := by
  simp only [List.mem_map, List.mem_filter, decide_eq_true_eq]
  constructor
  · rintro ⟨⟨a, b⟩, ⟨hmem, hb⟩, ha⟩
    subst hb
    subst ha
    exact hmem
  · intro hmem
    exact ⟨(un, t), ⟨hmem, rfl⟩, rfl⟩

/-- Helper: membership in the chat list computed by `offboard_user` before the
deletion, phrased against the tables of the state the query reads. -/
theorem mem_offboard_chats (s : DBState) (U : String) (c : Int) :
    c ∈ (((s.chat_teams.filter (fun ct => ct.2 ∈
          (s.team_members.filter (fun m => m.1 = U)).map (fun m => m.2))).map
            (fun ct => ct.1)).dedup) ↔
      ∃ tn, (U, tn) ∈ s.team_members ∧ (c, tn) ∈ s.chat_teams := by
  rw [List.mem_dedup]
  simp only [List.mem_map, List.mem_filter, decide_eq_true_eq]
  constructor
  · rintro ⟨⟨cid, tn⟩, ⟨hct, htn⟩, hc⟩
    subst hc
    obtain ⟨a, ⟨hmem, hfst⟩, hsnd⟩ := htn
    refine ⟨a.2, ?_, ?_⟩
    · rw [← hfst]
      exact hmem
    · rw [hsnd]
      exact hct
  · rintro ⟨tn, hmem, hct⟩
    exact ⟨(c, tn), ⟨hct, ⟨(U, tn), ⟨hmem, rfl⟩, rfl⟩⟩, rfl⟩

/-- C1, counterexample: the claim says the username is case-folded, so that
`AddMember("@Alice", "Eng")` followed by `RemoveMember("alice", "eng")` removes
the created membership.  On the code it does not: `add_member_to_team` stores
the username as `Alice` (only the at sign is stripped, the case is kept),
`remove_member_from_team` then looks up `alice`, deletes zero rows, reports
failure, and the membership row survives. -/
theorem add_remove_case_mismatch :
    (add_member_to_team (DBState.mk ["eng"] [] []) "@Alice" "Eng").2.team_members
      = [("Alice", "eng")] ∧
    (remove_member_from_team
      (add_member_to_team (DBState.mk ["eng"] [] []) "@Alice" "Eng").2
      "alice" "eng").1.success = false ∧
    (remove_member_from_team
      (add_member_to_team (DBState.mk ["eng"] [] []) "@Alice" "Eng").2
      "alice" "eng").2.team_members = [("Alice", "eng")] := by decide

/-- C1, amended: `add_member_to_team` and `remove_member_from_team` normalize
the username by removing the at-sign characters (without case-folding) and the
team name by lower-casing, before any lookup or write: two calls whose inputs
agree on those canonical forms behave identically on every state, and
`AddMember("@Alice", "Eng")` followed by `RemoveMember("Alice", "eng")`
removes the membership the first call created. -/
theorem add_remove_normalize (s : DBState) (u v t w : String)
    (hu : stripAt u = stripAt v) (ht : pyLower t = pyLower w) :
    add_member_to_team s u t = add_member_to_team s v w ∧
    remove_member_from_team s u t = remove_member_from_team s v w ∧
    (remove_member_from_team
        (add_member_to_team (DBState.mk ["eng"] [] []) "@Alice" "Eng").2
        "Alice" "eng").2.team_members = [] := by
  refine ⟨?_, ?_, by decide⟩
  · unfold add_member_to_team
    rw [hu, ht]
  · unfold remove_member_from_team
    rw [hu, ht]

/-- Witness for C1 amended, at the inputs of the claim. -/
theorem add_remove_normalize_witness :
    stripAt "@Alice" = stripAt "Alice" ∧ pyLower "Eng" = pyLower "eng" ∧
    (add_member_to_team initialState "@Alice" "Eng"
        = add_member_to_team initialState "Alice" "eng" ∧
      remove_member_from_team initialState "@Alice" "Eng"
        = remove_member_from_team initialState "Alice" "eng" ∧
      (remove_member_from_team
        (add_member_to_team (DBState.mk ["eng"] [] []) "@Alice" "Eng").2
        "Alice" "eng").2.team_members = []) :=
  ⟨by decide, by decide,
   add_remove_normalize initialState "@Alice" "Alice" "Eng" "eng"
     (by decide) (by decide)⟩

/-- C2: every mutating operation of the service is atomic: whenever the call
reports failure, the state after the call is exactly the state before it (the
transaction of the failing call commits nothing), and the caller gets the
typed result of the operation, never a raw storage exception — in the
embedding each operation is total into its result type. -/
theorem mutation_failure_keeps_state (s : DBState) (op : Op)
    (h : (runOp s op).1 = false) : (runOp s op).2 = s := by
  cases op with
  | createTeam t =>
    by_cases hc : pyLower t ∈ s.teams
    · simp only [runOp, create_team, if_pos hc]
    · simp only [runOp, create_team, if_neg hc, CreateTeamResult.success] at h
      simp at h
  | addMember u t =>
    by_cases hc : pyLower t ∈ s.teams
    · by_cases hm : (stripAt u, pyLower t) ∈ s.team_members
      · simp only [runOp, add_member_to_team, if_pos hc, if_pos hm]
      · simp only [runOp, add_member_to_team, if_pos hc, if_neg hm,
          AddMemberResult.success] at h
        simp at h
    · simp only [runOp, add_member_to_team, if_neg hc]
  | removeMember u t =>
    by_cases hm : (stripAt u, pyLower t) ∈ s.team_members
    · simp only [runOp, remove_member_from_team, if_pos hm,
        RemoveMemberResult.success] at h
      simp at h
    · simp only [runOp, remove_member_from_team, if_neg hm]
  | addTeamToChat c t =>
    by_cases hc : pyLower t ∈ s.teams
    · by_cases hl : (c, pyLower t) ∈ s.chat_teams
      · simp only [runOp, add_team_to_chat, if_pos hc, if_pos hl]
      · simp only [runOp, add_team_to_chat, if_pos hc, if_neg hl,
          AddTeamToChatResult.success] at h
        simp at h
    · simp only [runOp, add_team_to_chat, if_neg hc]
  | offboardUser u =>
    by_cases hz : (s.team_members.filter (fun m => m.1 = stripAt u)) = []
    · simp only [runOp, offboard_user, if_pos hz]
    · simp only [runOp, offboard_user, if_neg hz, OffboardResult.success] at h
      simp at h

/-- Witness for C2: adding a member to a missing team fails and keeps the
initial state. -/
theorem mutation_failure_keeps_state_witness :
    (runOp initialState (Op.addMember "bob" "eng")).1 = false ∧
    (runOp initialState (Op.addMember "bob" "eng")).2 = initialState :=
  ⟨by decide,
   mutation_failure_keeps_state initialState (Op.addMember "bob" "eng") (by decide)⟩

/-- C3: for a user in at least one team, `offboard_user` succeeds and returns
the duplicate-free set of the chat identifiers linked to any of the teams of
the user, computed against the tables as they stood before the deletion; all
of the memberships of the user are deleted and nothing else; afterwards
`get_user_teams` for the user is empty.  For a user in no team it fails and
deletes nothing. -/
theorem offboard_user_behaviour (s : DBState) (u : String) :
    ((¬ ∃ tn, (stripAt u, tn) ∈ s.team_members) →
      (∃ msg, (offboard_user s u).1 = OffboardResult.notInAnyTeam msg) ∧
      (offboard_user s u).2 = s) ∧
    ((∃ tn, (stripAt u, tn) ∈ s.team_members) →
      (∃ msg, (offboard_user s u).1
        = OffboardResult.ok msg (offboard_user s u).1.chats) ∧
      (∀ c : Int, c ∈ (offboard_user s u).1.chats ↔
        ∃ tn, (stripAt u, tn) ∈ s.team_members ∧ (c, tn) ∈ s.chat_teams) ∧
      ((offboard_user s u).1.chats).Nodup ∧
      (∀ m, m ∈ (offboard_user s u).2.team_members ↔
        m ∈ s.team_members ∧ m.1 ≠ stripAt u) ∧
      get_user_teams (offboard_user s u).2 u = []) := by
  have hiff : (s.team_members.filter (fun m => m.1 = stripAt u)) = []
      ↔ ¬ ∃ tn, (stripAt u, tn) ∈ s.team_members := by
    rw [List.filter_eq_nil_iff]
    constructor
    · rintro hall ⟨tn, htn⟩
      exact absurd (by simp : decide ((stripAt u, tn).1 = stripAt u) = true)
        (hall _ htn)
    · intro hne m hm
      simp only [decide_eq_true_eq]
      intro heq
      exact hne ⟨m.2, by rw [← heq]; exact hm⟩
  constructor
  · intro hno
    have hz : (s.team_members.filter (fun m => m.1 = stripAt u)) = [] :=
      hiff.mpr hno
    simp only [offboard_user, if_pos hz]
    exact ⟨⟨_, rfl⟩, by trivial⟩
  · intro hyes
    have hz : ¬ (s.team_members.filter (fun m => m.1 = stripAt u)) = [] := by
      intro h0
      exact (hiff.mp h0) hyes
    refine ⟨?_, ?_, ?_, ?_, ?_⟩
    · simp only [offboard_user, if_neg hz]
      exact ⟨_, rfl⟩
    · intro r
      simp only [offboard_user, if_neg hz, OffboardResult.chats]
      exact mem_offboard_chats s (stripAt u) r
    · simp only [offboard_user, if_neg hz, OffboardResult.chats]
      exact List.nodup_dedup _
    · intro m
      simp only [offboard_user, if_neg hz]
      simp [List.mem_filter]
    · simp only [offboard_user, if_neg hz, get_user_teams]
      rw [List.map_eq_nil_iff, List.filter_eq_nil_iff]
      intro m hm
      rcases List.mem_filter.mp hm with ⟨_, hneg⟩
      simp only [decide_eq_true_eq] at hneg ⊢
      exact hneg

/-- Witness for C3, at the example of the specification: a user in teams a
and b, linked to chats 1, 2 and 2, 3. -/
theorem offboard_user_behaviour_witness :
    (∃ msg, (offboard_user (DBState.mk ["a", "b"]
        [("alice", "a"), ("alice", "b")]
        [(1, "a"), (2, "a"), (2, "b"), (3, "b")]) "alice").1
      = OffboardResult.ok msg (offboard_user (DBState.mk ["a", "b"]
        [("alice", "a"), ("alice", "b")]
        [(1, "a"), (2, "a"), (2, "b"), (3, "b")]) "alice").1.chats) ∧
    get_user_teams (offboard_user (DBState.mk ["a", "b"]
        [("alice", "a"), ("alice", "b")]
        [(1, "a"), (2, "a"), (2, "b"), (3, "b")]) "alice").2 "alice" = [] := by
  have h := (offboard_user_behaviour (DBState.mk ["a", "b"]
        [("alice", "a"), ("alice", "b")]
        [(1, "a"), (2, "a"), (2, "b"), (3, "b")]) "alice").2
      ⟨"a", by decide⟩
  exact ⟨h.1, h.2.2.2.2⟩

/-- C4: on a state whose teams table holds the (normalized) team, adding the
same (username, team) pair right after adding it yields the already-member
failure, and the sequence add, remove, add succeeds on the final add: the
removal leaves no residual state for the pair. -/
theorem add_add_remove_add (s : DBState) (u t : String)
    (h : pyLower t ∈ s.teams) :
    (∃ msg, (add_member_to_team (add_member_to_team s u t).2 u t).1
        = AddMemberResult.alreadyMember msg) ∧
    (∃ msg cs,
      (add_member_to_team
        (remove_member_from_team (add_member_to_team s u t).2 u t).2 u t).1
        = AddMemberResult.ok msg cs) := by
  by_cases hm : (stripAt u, pyLower t) ∈ s.team_members
  · have h1 : (add_member_to_team s u t).2 = s := by
      simp only [add_member_to_team, if_pos h, if_pos hm]
    rw [h1]
    constructor
    · simp only [add_member_to_team, if_pos h, if_pos hm]
      exact ⟨_, rfl⟩
    · have h2 : (remove_member_from_team s u t).2
        = DBState.mk s.teams
            (s.team_members.filter (fun m => m ≠ (stripAt u, pyLower t)))
            s.chat_teams := by
        simp only [remove_member_from_team, if_pos hm]
      rw [h2]
      have h4 : (stripAt u, pyLower t)
          ∉ s.team_members.filter (fun m => m ≠ (stripAt u, pyLower t)) := by
        simp [List.mem_filter]
      simp only [add_member_to_team, if_pos h, if_neg h4]
      exact ⟨_, _, rfl⟩
  · have h1 : (add_member_to_team s u t).2
      = DBState.mk s.teams
          (s.team_members ++ [(stripAt u, pyLower t)]) s.chat_teams := by
      simp only [add_member_to_team, if_pos h, if_neg hm]
    rw [h1]
    have hm2 : (stripAt u, pyLower t)
        ∈ s.team_members ++ [(stripAt u, pyLower t)] :=
      List.mem_append_right _ (List.mem_singleton_self _)
    constructor
    · simp only [add_member_to_team, if_pos h, if_pos hm2]
      exact ⟨_, rfl⟩
    · have h2 : (remove_member_from_team
          (DBState.mk s.teams
            (s.team_members ++ [(stripAt u, pyLower t)]) s.chat_teams) u t).2
        = DBState.mk s.teams
            ((s.team_members ++ [(stripAt u, pyLower t)]).filter
              (fun m => m ≠ (stripAt u, pyLower t)))
            s.chat_teams := by
        simp only [remove_member_from_team, if_pos hm2]
      rw [h2]
      have h4 : (stripAt u, pyLower t)
          ∉ (s.team_members ++ [(stripAt u, pyLower t)]).filter
              (fun m => m ≠ (stripAt u, pyLower t)) := by
        simp [List.mem_filter]
      simp only [add_member_to_team, if_pos h, if_neg h4]
      exact ⟨_, _, rfl⟩

/-- Witness for C4, on a store holding only the team eng. -/
theorem add_add_remove_add_witness :
    (∃ msg, (add_member_to_team
        (add_member_to_team (DBState.mk ["eng"] [] []) "bob" "eng").2
        "bob" "eng").1 = AddMemberResult.alreadyMember msg) ∧
    (∃ msg cs,
      (add_member_to_team
        (remove_member_from_team
          (add_member_to_team (DBState.mk ["eng"] [] []) "bob" "eng").2
          "bob" "eng").2 "bob" "eng").1 = AddMemberResult.ok msg cs) :=
  add_add_remove_add (DBState.mk ["eng"] [] []) "bob" "eng" (by decide)

/-- C5: referential integrity — every `team_members` row and every
`chat_teams` row names a team present in `teams` — holds for the freshly
created store and is preserved by every mutating operation of the service:
the two inserts that could break it check team existence at write time, and
no operation ever deletes a team. -/
theorem referential_integrity :
    RefIntegrity initialState ∧
    ∀ (s : DBState) (op : Op), RefIntegrity s → RefIntegrity (runOp s op).2 := by
  constructor
  · exact ⟨by simp [initialState], by simp [initialState]⟩
  · rintro s op ⟨h1, h2⟩
    cases op with
    | createTeam t =>
      by_cases hc : pyLower t ∈ s.teams
      · simp only [runOp, create_team, if_pos hc]
        exact ⟨h1, h2⟩
      · simp only [runOp, create_team, if_neg hc]
        refine ⟨?_, ?_⟩
        · intro m hm
          exact List.mem_append_left _ (h1 m hm)
        · intro ct hct
          exact List.mem_append_left _ (h2 ct hct)
    | addMember u t =>
      by_cases hc : pyLower t ∈ s.teams
      · by_cases hm : (stripAt u, pyLower t) ∈ s.team_members
        · simp only [runOp, add_member_to_team, if_pos hc, if_pos hm]
          exact ⟨h1, h2⟩
        · simp only [runOp, add_member_to_team, if_pos hc, if_neg hm]
          refine ⟨?_, h2⟩
          intro m hm2
          rcases List.mem_append.mp hm2 with hin | hin
          · exact h1 m hin
          · have hms : m = (stripAt u, pyLower t) := List.mem_singleton.mp hin
            subst hms
            exact hc
      · simp only [runOp, add_member_to_team, if_neg hc]
        exact ⟨h1, h2⟩
    | removeMember u t =>
      by_cases hm : (stripAt u, pyLower t) ∈ s.team_members
      · simp only [runOp, remove_member_from_team, if_pos hm]
        refine ⟨?_, h2⟩
        intro m hm2
        exact h1 m (List.mem_of_mem_filter hm2)
      · simp only [runOp, remove_member_from_team, if_neg hm]
        exact ⟨h1, h2⟩
    | addTeamToChat c t =>
      by_cases hc : pyLower t ∈ s.teams
      · by_cases hl : (c, pyLower t) ∈ s.chat_teams
        · simp only [runOp, add_team_to_chat, if_pos hc, if_pos hl]
          exact ⟨h1, h2⟩
        · simp only [runOp, add_team_to_chat, if_pos hc, if_neg hl]
          refine ⟨h1, ?_⟩
          intro ct hct
          rcases List.mem_append.mp hct with hin | hin
          · exact h2 ct hin
          · have hcs : ct = (c, pyLower t) := List.mem_singleton.mp hin
            subst hcs
            exact hc
      · simp only [runOp, add_team_to_chat, if_neg hc]
        exact ⟨h1, h2⟩
    | offboardUser u =>
      by_cases hz : (s.team_members.filter (fun m => m.1 = stripAt u)) = []
      · simp only [runOp, offboard_user, if_pos hz]
        exact ⟨h1, h2⟩
      · simp only [runOp, offboard_user, if_neg hz]
        refine ⟨?_, h2⟩
        intro m hm2
        exact h1 m (List.mem_of_mem_filter hm2)

/-- Witness for C5: one preservation step on a store satisfying the
invariant. -/
theorem referential_integrity_witness :
    RefIntegrity (runOp (DBState.mk ["a"] [("u", "a")] [(1, "a")])
      (Op.addMember "v" "a")).2 :=
  referential_integrity.2 (DBState.mk ["a"] [("u", "a")] [(1, "a")])
    (Op.addMember "v" "a") (by decide)

/-- C6: on a store whose teams table is duplicate-free (the primary key keeps
it so), creating a team and then creating any team whose name is equal up to
letter case yields the already-exists failure on the second call, and the
teams table afterwards holds exactly one row for the lower-cased name. -/
theorem create_team_dup (s : DBState) (t1 t2 : String)
    (hnd : s.teams.Nodup) (he : pyLower t1 = pyLower t2) :
    (∃ msg, (create_team (create_team s t1).2 t2).1
      = CreateTeamResult.alreadyExists msg) ∧
    (create_team (create_team s t1).2 t2).2.teams.count (pyLower t2) = 1 := by
  by_cases h : pyLower t1 ∈ s.teams
  · have hs : (create_team s t1).2 = s := by
      simp only [create_team, if_pos h]
    rw [hs]
    have h2 : pyLower t2 ∈ s.teams := he ▸ h
    simp only [create_team, if_pos h2]
    exact ⟨⟨_, rfl⟩, List.count_eq_one_of_mem hnd h2⟩
  · have hs : (create_team s t1).2
      = DBState.mk (s.teams ++ [pyLower t1]) s.team_members s.chat_teams := by
      simp only [create_team, if_neg h]
    rw [hs]
    have h2 : pyLower t2 ∉ s.teams := he ▸ h
    have hmem : pyLower t2 ∈ s.teams ++ [pyLower t1] := by
      rw [← he]
      exact List.mem_append_right _ (List.mem_singleton_self _)
    simp only [create_team, if_pos hmem]
    refine ⟨⟨_, rfl⟩, ?_⟩
    rw [List.count_append, List.count_eq_zero_of_not_mem h2, he]
    simp

/-- Witness for C6: Eng then eng on the fresh store. -/
theorem create_team_dup_witness :
    (∃ msg, (create_team (create_team initialState "Eng").2 "eng").1
      = CreateTeamResult.alreadyExists msg) ∧
    (create_team (create_team initialState "Eng").2 "eng").2.teams.count
      (pyLower "eng") = 1 :=
  create_team_dup initialState "Eng" "eng" (by decide) (by decide)

/-- C7: `add_team_to_chat` fails with the not-found result when the team does
not exist (and changes nothing); when the team exists, a success carries
exactly the current member list of the team, a call on a fresh (chat, team)
pair succeeds, and a second call for the same pair yields the already-linked
failure. -/
theorem add_team_to_chat_behaviour (s : DBState) (c : Int) (t : String) :
    (pyLower t ∉ s.teams →
      (∃ msg, (add_team_to_chat s c t).1 = AddTeamToChatResult.teamNotFound msg) ∧
      (add_team_to_chat s c t).2 = s) ∧
    (pyLower t ∈ s.teams →
      (∀ msg ms, (add_team_to_chat s c t).1 = AddTeamToChatResult.ok msg ms →
        ∀ un, un ∈ ms ↔ (un, pyLower t) ∈ s.team_members) ∧
      ((c, pyLower t) ∉ s.chat_teams →
        ∃ msg ms, (add_team_to_chat s c t).1 = AddTeamToChatResult.ok msg ms) ∧
      (∃ msg, (add_team_to_chat (add_team_to_chat s c t).2 c t).1
          = AddTeamToChatResult.alreadyLinked msg)) := by
  constructor
  · intro h
    simp only [add_team_to_chat, if_neg h]
    exact ⟨⟨_, rfl⟩, by trivial⟩
  · intro h
    by_cases hl : (c, pyLower t) ∈ s.chat_teams
    · refine ⟨?_, ?_, ?_⟩
      · intro msg ms hok
        simp only [add_team_to_chat, if_pos h, if_pos hl] at hok
        exact absurd hok (by simp)
      · intro hnl
        exact absurd hl hnl
      · have hs : (add_team_to_chat s c t).2 = s := by
          simp only [add_team_to_chat, if_pos h, if_pos hl]
        rw [hs]
        simp only [add_team_to_chat, if_pos h, if_pos hl]
        exact ⟨_, rfl⟩
    · refine ⟨?_, ?_, ?_⟩
      · intro msg ms hok
        simp only [add_team_to_chat, if_pos h, if_neg hl] at hok
        intro un
        have hms : ms = (s.team_members.filter (fun m => m.2 = pyLower t)).map
            (fun m => m.1) := by
          cases hok
          rfl
        rw [hms]
        exact mem_map_fst_filter_snd s.team_members (pyLower t) un
      · intro _
        simp only [add_team_to_chat, if_pos h, if_neg hl]
        exact ⟨_, _, rfl⟩
      · have hs : (add_team_to_chat s c t).2
          = DBState.mk s.teams s.team_members
              (s.chat_teams ++ [(c, pyLower t)]) := by
          simp only [add_team_to_chat, if_pos h, if_neg hl]
        rw [hs]
        have hl2 : (c, pyLower t) ∈ s.chat_teams ++ [(c, pyLower t)] :=
          List.mem_append_right _ (List.mem_singleton_self _)
        simp only [add_team_to_chat, if_pos h, if_pos hl2]
        exact ⟨_, rfl⟩

/-- Witness for C7: linking the team eng to chat 100 twice. -/
theorem add_team_to_chat_behaviour_witness :
    ∃ msg, (add_team_to_chat
        (add_team_to_chat (DBState.mk ["eng"] [("bob", "eng")] []) 100 "eng").2
        100 "eng").1 = AddTeamToChatResult.alreadyLinked msg :=
  ((add_team_to_chat_behaviour (DBState.mk ["eng"] [("bob", "eng")] [])
    100 "eng").2 (by decide)).2.2

/-- C8: `get_team_members` returns the member usernames of the (normalized)
team sorted in the SQLite TEXT order, as a permutation of the usernames of
the rows of that team; when the team has no membership row — be it empty or
not present in `teams` at all — the result is the empty list, and the result
never depends on the `teams` table, so an unknown team and an empty team are
indistinguishable. -/
theorem list_team_members_sorted (s : DBState) (t : String) :
    (get_team_members s t).Sorted SLe ∧
    (get_team_members s t).Perm
      ((s.team_members.filter (fun m => m.2 = pyLower t)).map (fun m => m.1)) ∧
    ((∀ m ∈ s.team_members, m.2 ≠ pyLower t) → get_team_members s t = []) ∧
    (∀ ts1 ts2 : List String, ∀ tm : List (String × String),
      ∀ ct : List (Int × String),
      get_team_members (DBState.mk ts1 tm ct) t
        = get_team_members (DBState.mk ts2 tm ct) t) := by
  refine ⟨?_, ?_, ?_, ?_⟩
  · exact List.sorted_insertionSort SLe _
  · exact List.perm_insertionSort SLe _
  · intro hnone
    unfold get_team_members
    have hnil : s.team_members.filter (fun m => m.2 = pyLower t) = [] := by
      rw [List.filter_eq_nil_iff]
      intro m hm
      simpa using hnone m hm
    simp only [hnil, List.map_nil]
    rfl
  · intro ts1 ts2 tm ct
    unfold get_team_members
    rfl

/-- Witness for C8: a team absent from the fresh store lists no members. -/
theorem list_team_members_sorted_witness :
    get_team_members initialState "ghost" = [] :=
  (list_team_members_sorted initialState "ghost").2.2.1 (by decide)

/-- C9: for every username, `add_member_to_team` on a team absent from the
teams table fails with the not-found result and inserts nothing: the state is
unchanged. -/
theorem add_member_missing_team (s : DBState) (u t : String)
    (h : pyLower t ∉ s.teams) :
    (∃ msg, (add_member_to_team s u t).1 = AddMemberResult.teamNotFound msg) ∧
    (add_member_to_team s u t).2 = s := by
  unfold add_member_to_team
  simp only [if_neg h]
  exact ⟨⟨_, rfl⟩, by trivial⟩

/-- Witness for C9. -/
theorem add_member_missing_team_witness :
    (∃ msg, (add_member_to_team initialState "bob" "ghost").1
      = AddMemberResult.teamNotFound msg) ∧
    (add_member_to_team initialState "bob" "ghost").2 = initialState :=
  add_member_missing_team initialState "bob" "ghost" (by decide)

/-- C10: `remove_member_from_team` checks no team existence: on a referential-
integral store, removing a user from a nonexistent team produces the same
user-is-not-in-team failure value (and leaves the state unchanged) as removing
a non-member from an existing team does — there is no distinct team-not-found
outcome in this operation. -/
theorem remove_member_missing_team (s : DBState) (u t : String)
    (hri : RefIntegrity s) (h : pyLower t ∉ s.teams) :
    (remove_member_from_team s u t).1 =
      RemoveMemberResult.notAMember
        ("User " ++ pyRepr (stripAt u) ++ " is not in team " ++ pyRepr (pyLower t)) ∧
    (remove_member_from_team s u t).2 = s ∧
    (∀ s2 : DBState, pyLower t ∈ s2.teams →
      (stripAt u, pyLower t) ∉ s2.team_members →
      (remove_member_from_team s2 u t).1 =
        RemoveMemberResult.notAMember
          ("User " ++ pyRepr (stripAt u) ++ " is not in team " ++ pyRepr (pyLower t))) := by
  have hnm : (stripAt u, pyLower t) ∉ s.team_members := by
    intro hm
    exact h (hri.1 _ hm)
  refine ⟨?_, ?_, ?_⟩
  · simp only [remove_member_from_team, if_neg hnm]
  · simp only [remove_member_from_team, if_neg hnm]
  · intro s2 _ hnm2
    simp only [remove_member_from_team, if_neg hnm2]

/-- Witness for C10: removing bob from a team that does not exist. -/
theorem remove_member_missing_team_witness :
    (remove_member_from_team (DBState.mk ["other"] [("bob", "other")] [])
        "bob" "ghost").1
      = RemoveMemberResult.notAMember
        ("User " ++ pyRepr (stripAt "bob") ++ " is not in team "
          ++ pyRepr (pyLower "ghost")) :=
  (remove_member_missing_team (DBState.mk ["other"] [("bob", "other")] [])
    "bob" "ghost" (by decide) (by decide)).1

end Marina
